import Mathlib

/-!
Verification of the JumpLab vertical-jump analyzer.

The numeric type of the source (JavaScript `number`) is modelled by exact
rationals `ℚ`; the spec's approximate numeric claims are stated with explicit
tolerances.  Opaque randomly generated id strings for reference lines are
modelled by a fresh-name counter carried in the application state; all other
ids are plain strings supplied as parameters.  The browser `localStorage` is
modelled by `stored*` fields of the state, and the host `<video>` element by
an optional `VideoEl` record (`videoRef.current === null` becomes `none`).
-/

namespace JumpLab

/-! ## src/utils/physics.ts -/

/-- The gravitational constant `G = 9.80665` of `calculateJumpHeight`. -/
def G : ℚ := 9.80665

/-- `calculateJumpHeight` from src/utils/physics.ts: height in centimeters
from flight time in seconds, `h = (G * t^2) / 8` meters, converted to cm. -/
def calculateJumpHeight (flightTimeSeconds : ℚ) : ℚ :=
  let heightMeters := (G * flightTimeSeconds ^ 2) / 8
  heightMeters * 100

/-- Truncation toward zero, the rounding used by the JavaScript `%` operator. -/
def ratTrunc (q : ℚ) : ℤ :=
  if 0 ≤ q then ⌊q⌋ else -⌊-q⌋

/-- The JavaScript remainder `a % b`: `a - b * trunc (a / b)`. -/
def jsMod (a b : ℚ) : ℚ :=
  a - b * (ratTrunc (a / b) : ℚ)

/-- JavaScript `String.prototype.trim()`: strips leading and trailing
whitespace.  Written by structural recursion over the character list (Lean's
own `String.trim` is byte-position based and does not reduce in the kernel);
the whitespace test is `Char.isWhitespace`. -/
def jsTrim (s : String) : String :=
  String.mk (((s.data.dropWhile Char.isWhitespace).reverse.dropWhile Char.isWhitespace).reverse)

/-- JavaScript `String.prototype.padStart(targetLength, c)`. -/
def padStart (s : String) (targetLength : Nat) (c : Char) : String :=
  if targetLength ≤ s.length then s
  else String.mk (List.replicate (targetLength - s.length) c) ++ s

/-- `formatTime` from src/utils/physics.ts: `MM:SS.mmm`, with
`m = floor(seconds / 60)`, `s = floor(seconds % 60)`,
`ms = floor((seconds % 1) * 1000)`, zero-padded to widths 2, 2, 3. -/
def formatTime (seconds : ℚ) : String :=
  let m : ℤ := ⌊seconds / 60⌋
  let s : ℤ := ⌊jsMod seconds 60⌋
  let ms : ℤ := ⌊jsMod seconds 1 * 1000⌋
  padStart (toString m) 2 '0' ++ ":" ++ padStart (toString s) 2 '0' ++ "." ++
    padStart (toString ms) 3 '0'

/-- The spec's description of `formatDuration`: minutes, seconds and
milliseconds components each floor-truncated (minutes `⌊t/60⌋`, whole seconds
`⌊t⌋ mod 60`, milliseconds `⌊1000 t⌋ mod 1000`) and left-zero-padded to widths
2, 2 and 3.  Stated from the spec's words, to be compared with `formatTime`. -/
def formatDurationSpec (t : ℚ) : String :=
  let m : ℤ := ⌊t / 60⌋
  let s : ℤ := ⌊t⌋ % 60
  let ms : ℤ := ⌊t * 1000⌋ % 1000
  padStart (toString m) 2 '0' ++ ":" ++ padStart (toString s) 2 '0' ++ "." ++
    padStart (toString ms) 3 '0'

/-! ## Derived session values (src/App.tsx lines 198-202) -/

/-- The derived flight time of src/App.tsx:
`(takeOffTime !== null && landingTime !== null) ? Math.max(0, landingTime - takeOffTime) : 0`. -/
def flightTime : Option ℚ → Option ℚ → ℚ
  | some takeOff, some landing => max 0 (landing - takeOff)
  | _, _ => 0

/-- The derived jump height of src/App.tsx:
`flightTime > 0 ? calculateJumpHeight(flightTime) : 0`. -/
def jumpHeight (takeOff landing : Option ℚ) : ℚ :=
  if 0 < flightTime takeOff landing then calculateJumpHeight (flightTime takeOff landing)
  else 0

/-! ## Data model (src/types.ts) -/

/-- `UserProfile` from src/types.ts. -/
structure UserProfile where
  id : String
  name : String
  createdAt : ℤ
deriving DecidableEq

/-- `JumpRecord` from src/types.ts (the optional `note` is never set by the
app and is omitted). -/
structure JumpRecord where
  id : String
  userId : String
  date : ℤ
  heightCm : ℚ
  flightTime : ℚ
deriving DecidableEq

/-- `ReferenceLineData` from src/types.ts.  The opaque randomly generated id
string is modelled as a natural number drawn from a fresh-name counter. -/
structure ReferenceLineData where
  id : ℕ
  topPercent : ℚ
  color : String
deriving DecidableEq

/-- `VideoMarker` from src/types.ts. -/
structure VideoMarker where
  id : String
  time : ℚ
  label : String
deriving DecidableEq

/-- The host `<video>` element referenced by `videoRef` in src/App.tsx. -/
structure VideoEl where
  currentTime : ℚ
  duration : ℚ
  paused : Bool
deriving DecidableEq

/-- The React state of the `App` component in src/App.tsx, together with the
modelled external collaborators: `videoEl` is `videoRef.current` (`none` when
no video element is mounted), `storedUsers`/`storedHistory` are the two
`localStorage` keys, and `nextLineId` is the fresh-name counter standing in
for `generateId`. -/
structure AppState where
  videoEl : Option VideoEl
  isPlaying : Bool
  currentTime : ℚ
  duration : ℚ
  fps : ℚ
  takeOffTime : Option ℚ
  landingTime : Option ℚ
  lines : List ReferenceLineData
  nextLineId : ℕ
  markers : List VideoMarker
  users : List UserProfile
  currentUser : Option UserProfile
  jumpHistory : List JumpRecord
  newUserName : String
  isUserModalOpen : Bool
  storedUsers : List UserProfile
  storedHistory : List JumpRecord
deriving DecidableEq

/-- The component's initial state: `useState` initialisers of src/App.tsx
(the single default reference line, fps 60, nothing loaded).  The mount
effect that loads users from storage is not part of any claim and is not
applied here. -/
def initState : AppState where
  videoEl := none
  isPlaying := false
  currentTime := 0
  duration := 0
  fps := 60
  takeOffTime := none
  landingTime := none
  lines := [{ id := 0, topPercent := 50, color := "white" }]
  nextLineId := 1
  markers := []
  users := []
  currentUser := none
  jumpHistory := []
  newUserName := ""
  isUserModalOpen := false
  storedUsers := []
  storedHistory := []

/-! ## Operations (src/App.tsx) -/

/-- Derived `flightTime` of the current state (src/App.tsx lines 198-200). -/
def stateFlightTime (s : AppState) : ℚ :=
  flightTime s.takeOffTime s.landingTime

/-- Derived `jumpHeight` of the current state (src/App.tsx line 202). -/
def stateJumpHeight (s : AppState) : ℚ :=
  jumpHeight s.takeOffTime s.landingTime

/-- `togglePlay` (src/App.tsx lines 101-110): guarded on `videoRef.current`;
plays or pauses the element and flips `isPlaying`. -/
def togglePlay (s : AppState) : AppState :=
  match s.videoEl with
  | none => s
  | some v =>
    { s with videoEl := some { v with paused := s.isPlaying },
             isPlaying := !s.isPlaying }

/-- `stepFrames` (src/App.tsx lines 131-140): guarded on `videoRef.current`;
pauses, then moves the element time by `frames * (1 / fps)` clamped with
`Math.min(Math.max(0, ...), duration)`, mirroring the new time into state. -/
def stepFrames (frames : ℤ) (s : AppState) : AppState :=
  match s.videoEl with
  | none => s
  | some v =>
    let frameTime : ℚ := 1 / s.fps
    let newTime := min (max 0 (v.currentTime + frames * frameTime)) v.duration
    { s with videoEl := some { v with currentTime := newTime, paused := true },
             isPlaying := false,
             currentTime := newTime }

/-- `seekTo` (src/App.tsx lines 167-174): guarded on `videoRef.current`;
assigns the element time and the state time to `time` as given (no clamping
appears in the source) and pauses. -/
def seekTo (time : ℚ) (s : AppState) : AppState :=
  match s.videoEl with
  | none => s
  | some v =>
    { s with videoEl := some { v with currentTime := time, paused := true },
             currentTime := time,
             isPlaying := false }

/-- `addLine` (src/App.tsx lines 143-147): appends a line with a fresh id,
`topPercent = 40 + lines.length * 5` and the next colour of the cycle. -/
def addLine (s : AppState) : AppState :=
  let colors := ["red", "blue", "green", "yellow"]
  let nextColor := colors.getD (s.lines.length % colors.length) "white"
  { s with
      lines := s.lines ++
        [{ id := s.nextLineId, topPercent := 40 + s.lines.length * 5, color := nextColor }],
      nextLineId := s.nextLineId + 1 }

/-- `removeLine` (src/App.tsx lines 149-151): filters out the given id. -/
def removeLine (id : ℕ) (s : AppState) : AppState :=
  { s with lines := s.lines.filter (fun l => l.id != id) }

/-- The remove-line operation as exposed by the UI (src/App.tsx line 334):
`onDelete` is wired to `removeLine` only when `lines.length > 1`, so with a
single remaining line the operation does nothing. -/
def removeLineGated (id : ℕ) (s : AppState) : AppState :=
  if 1 < s.lines.length then removeLine id s else s

/-- `handleCreateUser` (src/App.tsx lines 177-190): no-op when the entered
name trims to empty; otherwise appends the new profile, makes it current,
persists the list, clears the input and closes the modal.  `generateId` and
`Date.now()` are passed in as `newId` and `now`. -/
def handleCreateUser (newId : String) (now : ℤ) (s : AppState) : AppState :=
  if jsTrim s.newUserName = "" then s
  else
    let newUser : UserProfile := { id := newId, name := s.newUserName, createdAt := now }
    let updatedUsers := s.users ++ [newUser]
    { s with users := updatedUsers,
             currentUser := some newUser,
             storedUsers := updatedUsers,
             newUserName := "",
             isUserModalOpen := false }

/-- `saveResult` (src/App.tsx lines 204-219): no-op unless a current user
exists and the derived flight time is positive; otherwise prepends a record
with the derived height and flight time and persists the new list. -/
def saveResult (newId : String) (now : ℤ) (s : AppState) : AppState :=
  match s.currentUser with
  | none => s
  | some currentUser =>
    if stateFlightTime s ≤ 0 then s
    else
      let record : JumpRecord :=
        { id := newId, userId := currentUser.id, date := now,
          heightCm := stateJumpHeight s, flightTime := stateFlightTime s }
      let updatedHistory := record :: s.jumpHistory
      { s with jumpHistory := updatedHistory, storedHistory := updatedHistory }

/-! ## Helper lemmas -/

/-- For `0 ≤ t`, the truncation used by the JavaScript `%` agrees with the
floor. -/
theorem ratTrunc_eq_floor (t : ℚ) (ht : 0 ≤ t) : ratTrunc t = ⌊t⌋ := by
  simp [ratTrunc, ht]

/-- The seconds component of `formatTime`: for `0 ≤ t`,
`⌊t % 60⌋ = ⌊t⌋ % 60`. -/
theorem floor_jsMod_sixty (t : ℚ) (ht : 0 ≤ t) : ⌊jsMod t 60⌋ = ⌊t⌋ % 60 := by
  have hdiv : (0 : ℚ) ≤ t / 60 := by positivity
  have hmod : jsMod t 60 = t - ((60 * ⌊t / 60⌋ : ℤ) : ℚ) := by
    rw [jsMod, ratTrunc_eq_floor _ hdiv]
    push_cast
    ring
  have hlow : 60 * ⌊t / 60⌋ ≤ ⌊t⌋ := by
    apply Int.le_floor.mpr
    push_cast
    have h := Int.floor_le (t / 60)
    linarith
  have hhigh : ⌊t⌋ < 60 * ⌊t / 60⌋ + 60 := by
    apply Int.floor_lt.mpr
    push_cast
    have h := Int.lt_floor_add_one (t / 60)
    linarith
  rw [hmod, Int.floor_sub_int]
  omega

/-- The milliseconds component of `formatTime`: for `0 ≤ t`,
`⌊(t % 1) * 1000⌋ = ⌊1000 t⌋ % 1000`. -/
theorem floor_jsMod_one_thousand (t : ℚ) (ht : 0 ≤ t) :
    ⌊jsMod t 1 * 1000⌋ = ⌊t * 1000⌋ % 1000 := by
  have hone : jsMod t 1 = t - (⌊t⌋ : ℚ) := by
    rw [jsMod, div_one, ratTrunc_eq_floor _ ht]
    ring
  have hmul : jsMod t 1 * 1000 = t * 1000 - ((1000 * ⌊t⌋ : ℤ) : ℚ) := by
    rw [hone]
    push_cast
    ring
  have hlow : 1000 * ⌊t⌋ ≤ ⌊t * 1000⌋ := by
    apply Int.le_floor.mpr
    push_cast
    have h := Int.floor_le t
    linarith
  have hhigh : ⌊t * 1000⌋ < 1000 * ⌊t⌋ + 1000 := by
    apply Int.floor_lt.mpr
    push_cast
    have h := Int.lt_floor_add_one t
    linarith
  rw [hmul, Int.floor_sub_int]
  omega

/-- `calculateJumpHeight` is strictly positive on positive flight times. -/
theorem calculateJumpHeight_pos (t : ℚ) (ht : 0 < t) : 0 < calculateJumpHeight t := by
  have h2 : 0 < t ^ 2 := pow_pos ht 2
  have hG : (0 : ℚ) < G := by norm_num [G]
  simp only [calculateJumpHeight]
  exact mul_pos (div_pos (mul_pos hG h2) (by norm_num)) (by norm_num)

/-! ## Claims C1-C3 -/

/-- Claim C1: for every flight time `t`, `calculateJumpHeight t` equals
`(g * t^2) / 8 * 100` with `g = 9.80665`; the function is a total pure
function of `t` (it is a Lean function into `ℚ`), and at `t = 0.5` the value
is within `0.01` of the reference `30.65` cm. -/
theorem calculateJumpHeight_formula :
    (∀ t : ℚ, calculateJumpHeight t = 9.80665 * t ^ 2 / 8 * 100) ∧
    |calculateJumpHeight (1 / 2) - 30.65| ≤ 1 / 100 := by
  constructor
  · intro t
    simp [calculateJumpHeight, G]
  · rw [abs_le]
    constructor <;> norm_num [calculateJumpHeight, G]

/-- Claim C2: the derived flight time is `max 0 (landing - takeOff)` when
both marks are set and `0` when either is unset, hence never negative; the
derived height applies the physics formula exactly when the flight time is
strictly positive and is the sentinel `0` otherwise (rendered as `---`). -/
theorem flightTime_jumpHeight_spec :
    (∀ a b : ℚ, flightTime (some a) (some b) = max 0 (b - a)) ∧
    (∀ b : Option ℚ, flightTime none b = 0) ∧
    (∀ a : Option ℚ, flightTime a none = 0) ∧
    (∀ a b : Option ℚ, 0 ≤ flightTime a b) ∧
    (∀ a b : Option ℚ, 0 < flightTime a b →
      jumpHeight a b = calculateJumpHeight (flightTime a b)) ∧
    (∀ a b : Option ℚ, ¬ 0 < flightTime a b → jumpHeight a b = 0) := by
  refine ⟨fun a b => rfl, fun b => ?_, fun a => ?_, fun a b => ?_, fun a b h => ?_,
    fun a b h => ?_⟩
  · cases b <;> rfl
  · cases a <;> rfl
  · cases a with
    | none => exact le_refl 0
    | some x =>
      cases b with
      | none => exact le_refl 0
      | some y => exact le_max_left 0 (y - x)
  · simp only [jumpHeight, if_pos h]
  · simp only [jumpHeight, if_neg h]

/-- Witness for C2 at a concrete session (take-off 0 s, landing 1 s). -/
theorem flightTime_jumpHeight_spec_witness :
    jumpHeight (some 0) (some 1) = calculateJumpHeight (flightTime (some 0) (some 1)) :=
  flightTime_jumpHeight_spec.2.2.2.2.1 (some 0) (some 1) (by norm_num [flightTime])

/-- Claim C3: for every non-negative `t`, `formatTime t` is the `MM:SS.mmm`
string with floor-truncated minutes `⌊t/60⌋`, whole seconds `⌊t⌋ mod 60` and
milliseconds `⌊1000 t⌋ mod 1000`, each left-zero-padded to widths 2, 2, 3
(the spec-side `formatDurationSpec`); in particular
`formatTime 61.9996 = "01:01.999"` (truncation, not rounding). -/
theorem formatTime_matches_spec :
    (∀ t : ℚ, 0 ≤ t → formatTime t = formatDurationSpec t) ∧
    formatTime (619996 / 10000) = "01:01.999" := by
  constructor
  · intro t ht
    simp only [formatTime, formatDurationSpec, floor_jsMod_sixty t ht,
      floor_jsMod_one_thousand t ht]
  · norm_num [formatTime, jsMod, ratTrunc, padStart]
    rfl

/-- Witness for C3 at `t = 90` seconds. -/
theorem formatTime_matches_spec_witness : formatTime 90 = formatDurationSpec 90 :=
  formatTime_matches_spec.1 90 (by decide)

/-! ## Claims C4-C6 -/

/-- Claim C4: `saveResult` is a complete no-op when the derived flight time
is not strictly positive or no current user exists; otherwise it prepends
exactly one record carrying the derived height and flight time to the
history and persists the new list, leaving every other field unchanged. -/
theorem saveResult_spec :
    ∀ (newId : String) (now : ℤ) (s : AppState),
      ((s.currentUser = none ∨ stateFlightTime s ≤ 0) → saveResult newId now s = s) ∧
      (∀ u : UserProfile, s.currentUser = some u → 0 < stateFlightTime s →
        saveResult newId now s =
          { s with
              jumpHistory :=
                { id := newId, userId := u.id, date := now,
                  heightCm := stateJumpHeight s,
                  flightTime := stateFlightTime s } :: s.jumpHistory,
              storedHistory :=
                { id := newId, userId := u.id, date := now,
                  heightCm := stateJumpHeight s,
                  flightTime := stateFlightTime s } :: s.jumpHistory }) := by
  intro newId now s
  constructor
  · rintro (h | h)
    · simp [saveResult, h]
    · cases hcu : s.currentUser with
      | none => simp [saveResult, hcu]
      | some u => simp [saveResult, hcu, h]
  · intro u hu hpos
    simp [saveResult, hu, not_le.mpr hpos]

/-- A state used to witness the save path: a current user and a session with
take-off at 0 s and landing at 1 s. -/
def demoSaveState : AppState :=
  { initState with
      currentUser := some { id := "u1", name := "Guest", createdAt := 0 },
      takeOffTime := some 0,
      landingTime := some 1 }

/-- Witness for C4: saving on `demoSaveState` prepends exactly the derived
record. -/
theorem saveResult_spec_witness :
    saveResult "r1" 5 demoSaveState =
      { demoSaveState with
          jumpHistory :=
            { id := "r1", userId := "u1", date := 5,
              heightCm := stateJumpHeight demoSaveState,
              flightTime := stateFlightTime demoSaveState } :: demoSaveState.jumpHistory,
          storedHistory :=
            { id := "r1", userId := "u1", date := 5,
              heightCm := stateJumpHeight demoSaveState,
              flightTime := stateFlightTime demoSaveState } :: demoSaveState.jumpHistory } :=
  (saveResult_spec "r1" 5 demoSaveState).2
    { id := "u1", name := "Guest", createdAt := 0 } rfl
    (by norm_num [demoSaveState, initState, stateFlightTime, flightTime])

/-- A state with a mounted video element of duration 1 s, used for the seek
counterexample. -/
def seekDemoState : AppState :=
  { initState with
      videoEl := some { currentTime := 0, duration := 1, paused := false },
      duration := 1 }

/-- Counterexample to claim C5: `seekTo` does not clamp.  Seeking to 5 s in
a 1 s video stores current time 5, not the clamped `min (max 0 5) 1 = 1`
(contrast `stepFrames`, which does clamp). -/
theorem seekTo_clamp_counterexample :
    (seekTo 5 seekDemoState).currentTime = 5 ∧
    (seekTo 5 seekDemoState).currentTime ≠ min (max 0 (5 : ℚ)) seekDemoState.duration := by
  constructor
  · simp [seekTo, seekDemoState, initState]
  · simp [seekTo, seekDemoState, initState]

/-- Claim C5 as amended: for every target time `t`, `seekTo` pauses playback
and updates the current time (both the element's and the state's) to `t` as
given; no clamping to `[0, duration]` is applied by the application. -/
theorem seekTo_spec_amended :
    ∀ (t : ℚ) (s : AppState) (v : VideoEl), s.videoEl = some v →
      seekTo t s =
        { s with
            videoEl := some { v with currentTime := t, paused := true },
            currentTime := t,
            isPlaying := false } := by
  intro t s v hv
  simp [seekTo, hv]

/-- Witness for the amended C5 on `seekDemoState`. -/
theorem seekTo_spec_amended_witness :
    seekTo 5 seekDemoState =
      { seekDemoState with
          videoEl := some { currentTime := 5, duration := 1, paused := true },
          currentTime := 5,
          isPlaying := false } :=
  seekTo_spec_amended 5 seekDemoState { currentTime := 0, duration := 1, paused := false } rfl

/-- Claim C6: with a video element mounted and a non-negative duration,
`stepFrames n` pauses playback and moves the current time by `n * (1 / fps)`
from the element's time, clamped to `[0, duration]`. -/
theorem stepFrames_spec :
    ∀ (n : ℤ) (s : AppState) (v : VideoEl), s.videoEl = some v → 0 ≤ v.duration →
      (stepFrames n s).isPlaying = false ∧
      (stepFrames n s).currentTime =
        min (max 0 (v.currentTime + n * (1 / s.fps))) v.duration ∧
      0 ≤ (stepFrames n s).currentTime ∧
      (stepFrames n s).currentTime ≤ v.duration ∧
      (stepFrames n s).videoEl =
        some { v with currentTime := (stepFrames n s).currentTime, paused := true } := by
  intro n s v hv hd
  refine ⟨by simp [stepFrames, hv], by simp [stepFrames, hv], ?_, ?_, by simp [stepFrames, hv]⟩
  · simp only [stepFrames, hv]
    exact le_min (le_max_left 0 _) hd
  · simp only [stepFrames, hv]
    exact min_le_right _ _

/-- Witness for C6: stepping one frame forward at 60 fps in `seekDemoState`
lands on the clamped time. -/
theorem stepFrames_spec_witness :
    (stepFrames 1 seekDemoState).isPlaying = false ∧
    (stepFrames 1 seekDemoState).currentTime = min (max 0 (0 + 1 * (1 / 60))) 1 ∧
    0 ≤ (stepFrames 1 seekDemoState).currentTime ∧
    (stepFrames 1 seekDemoState).currentTime ≤ (1 : ℚ) ∧
    (stepFrames 1 seekDemoState).videoEl =
      some { currentTime := (stepFrames 1 seekDemoState).currentTime, duration := 1,
             paused := true } :=
  stepFrames_spec 1 seekDemoState { currentTime := 0, duration := 1, paused := false } rfl
    (by norm_num)

/-! ## Claim C7: the reference-line collection never goes below one line -/

/-- The two line operations the UI exposes: the add button and a line's
delete control (which is only wired when more than one line exists). -/
inductive LineOp where
  | addL : LineOp
  | removeL : ℕ → LineOp
deriving DecidableEq

/-- Apply one UI line operation. -/
def applyLineOp (s : AppState) : LineOp → AppState
  | .addL => addLine s
  | .removeL id => removeLineGated id s

/-- Apply a sequence of UI line operations. -/
def runLineOps (ops : List LineOp) (s : AppState) : AppState :=
  ops.foldl applyLineOp s

/-- The structural invariant on the line collection: at least one line,
pairwise distinct ids, and every id below the fresh-name counter. -/
def LinesOK (s : AppState) : Prop :=
  1 ≤ s.lines.length ∧ (s.lines.map ReferenceLineData.id).Nodup ∧
    ∀ l ∈ s.lines, l.id < s.nextLineId

/-- With pairwise distinct ids, filtering one id away removes at most one
element. -/
theorem length_filter_id_ne (l : List ReferenceLineData) (id : ℕ)
    (h : (l.map ReferenceLineData.id).Nodup) :
    l.length - 1 ≤ (l.filter (fun x => x.id != id)).length := by
  induction l with
  | nil => simp
  | cons a l ih =>
    simp only [List.map_cons, List.nodup_cons] at h
    by_cases ha : a.id = id
    · have hkeep : l.filter (fun x => x.id != id) = l := by
        apply List.filter_eq_self.mpr
        intro x hx
        have hxa : x.id ≠ a.id := by
          intro hcontra
          exact h.1 (hcontra ▸ List.mem_map_of_mem ReferenceLineData.id hx)
        simpa [bne_iff_ne, ha] using fun hxid => hxa (by rw [hxid, ha])
      simp [List.filter_cons, ha, hkeep]
    · have hcond : (a.id != id) = true := by
        simpa [bne_iff_ne] using ha
      have := ih h.2
      simp only [List.filter_cons, hcond, if_true, List.length_cons]
      omega

/-- `addLine` preserves the line invariant. -/
theorem linesOK_addLine (s : AppState) (h : LinesOK s) : LinesOK (addLine s) := by
  obtain ⟨h1, h2, h3⟩ := h
  refine ⟨?_, ?_, ?_⟩
  · simp only [addLine, List.length_append, List.length_cons, List.length_nil]
    omega
  · have hnotin : s.nextLineId ∉ s.lines.map ReferenceLineData.id := by
      intro hmem
      obtain ⟨x, hx, hxid⟩ := List.mem_map.mp hmem
      have := h3 x hx
      omega
    simp only [addLine, List.map_append, List.map_cons, List.map_nil]
    rw [List.nodup_append]
    refine ⟨h2, List.nodup_singleton _, ?_⟩
    intro a ha hb
    simp only [List.mem_singleton] at hb
    exact hnotin (hb ▸ ha)
  · intro l hl
    simp only [addLine] at hl ⊢
    rcases List.mem_append.mp hl with hl | hl
    · exact Nat.lt_succ_of_lt (h3 l hl)
    · simp only [List.mem_singleton] at hl
      subst hl
      exact Nat.lt_succ_self _
/-- `removeLineGated` preserves the line invariant: when more than one line
exists the filter removes at most one (ids are distinct), and otherwise it is
a no-op. -/
theorem linesOK_removeLineGated (s : AppState) (id : ℕ) (h : LinesOK s) :
    LinesOK (removeLineGated id s) := by
  obtain ⟨h1, h2, h3⟩ := h
  unfold removeLineGated
  split
  case isTrue hlen =>
    refine ⟨?_, ?_, ?_⟩
    · have := length_filter_id_ne s.lines id h2
      simp only [removeLine]
      omega
    · have hsub : ((s.lines.filter (fun x => x.id != id)).map ReferenceLineData.id).Sublist
          (s.lines.map ReferenceLineData.id) :=
        (List.filter_sublist s.lines).map ReferenceLineData.id
      exact h2.sublist hsub
    · intro l hl
      simp only [removeLine] at hl ⊢
      exact h3 l (List.mem_of_mem_filter hl)
  case isFalse _ =>
    exact ⟨h1, h2, h3⟩

/-- The line invariant holds along any sequence of UI line operations. -/
theorem linesOK_runLineOps (ops : List LineOp) (s : AppState) (h : LinesOK s) :
    LinesOK (runLineOps ops s) := by
  induction ops generalizing s with
  | nil => exact h
  | cons op ops ih =>
    cases op with
    | addL => exact ih (addLine s) (linesOK_addLine s h)
    | removeL id => exact ih (removeLineGated id s) (linesOK_removeLineGated s id h)

/-- Claim C7: deleting the last remaining reference line is a no-op, and no
sequence of add-line / remove-line operations starting from the initial state
(a single default line) ever brings the line count below 1. -/
theorem lines_never_below_one :
    (∀ (s : AppState) (id : ℕ), s.lines.length = 1 → removeLineGated id s = s) ∧
    (∀ ops : List LineOp, 1 ≤ (runLineOps ops initState).lines.length) := by
  constructor
  · intro s id h
    simp [removeLineGated, h]
  · intro ops
    have hinit : LinesOK initState := by
      refine ⟨by simp [initState], by simp [initState], ?_⟩
      intro l hl
      simp only [initState, List.mem_singleton] at hl
      subst hl
      exact Nat.one_pos
    exact (linesOK_runLineOps ops initState hinit).1

/-- Witness for C7: deleting the single default line of the initial state
does nothing. -/
theorem lines_never_below_one_witness : removeLineGated 0 initState = initState :=
  lines_never_below_one.1 initState 0 rfl

/-! ## Claims C8-C10 -/

/-- Claim C8: creating a user whose entered name trims to the empty string
is a complete no-op; any other name appends exactly one new profile (length
grows by one), persists the list, and makes the new profile current. -/
theorem handleCreateUser_spec :
    ∀ (newId : String) (now : ℤ) (s : AppState),
      (jsTrim s.newUserName = "" → handleCreateUser newId now s = s) ∧
      (jsTrim s.newUserName ≠ "" →
        handleCreateUser newId now s =
          { s with
              users := s.users ++ [{ id := newId, name := s.newUserName, createdAt := now }],
              currentUser := some { id := newId, name := s.newUserName, createdAt := now },
              storedUsers := s.users ++ [{ id := newId, name := s.newUserName, createdAt := now }],
              newUserName := "",
              isUserModalOpen := false } ∧
        (handleCreateUser newId now s).users.length = s.users.length + 1 ∧
        (handleCreateUser newId now s).currentUser =
          some { id := newId, name := s.newUserName, createdAt := now } ∧
        (handleCreateUser newId now s).storedUsers = (handleCreateUser newId now s).users) := by
  intro newId now s
  constructor
  · intro h
    simp [handleCreateUser, h]
  · intro h
    refine ⟨by simp [handleCreateUser, h], by simp [handleCreateUser, h],
      by simp [handleCreateUser, h], by simp [handleCreateUser, h]⟩

/-- A state in which the user-creation input holds the name `"Alice"`. -/
def demoUserState : AppState := { initState with newUserName := "Alice" }

/-- Witness for C8: creating `"Alice"` appends one profile and makes it
current. -/
theorem handleCreateUser_spec_witness :
    handleCreateUser "u2" 7 demoUserState =
      { demoUserState with
          users := demoUserState.users ++ [{ id := "u2", name := "Alice", createdAt := 7 }],
          currentUser := some { id := "u2", name := "Alice", createdAt := 7 },
          storedUsers := demoUserState.users ++ [{ id := "u2", name := "Alice", createdAt := 7 }],
          newUserName := "",
          isUserModalOpen := false } :=
  ((handleCreateUser_spec "u2" 7 demoUserState).2 (by decide)).1

/-- Claim C9: with no mounted video element, `togglePlay`, `stepFrames n`
and `seekTo t` are complete no-ops on the application state. -/
theorem noVideo_noops :
    ∀ s : AppState, s.videoEl = none →
      togglePlay s = s ∧ (∀ n : ℤ, stepFrames n s = s) ∧ (∀ t : ℚ, seekTo t s = s) := by
  intro s h
  refine ⟨?_, fun n => ?_, fun t => ?_⟩ <;> simp [togglePlay, stepFrames, seekTo, h]

/-- Witness for C9 on the initial state (no video loaded). -/
theorem noVideo_noops_witness :
    togglePlay initState = initState ∧ stepFrames 3 initState = initState ∧
      seekTo 7 initState = initState :=
  ⟨(noVideo_noops initState rfl).1, (noVideo_noops initState rfl).2.1 3,
    (noVideo_noops initState rfl).2.2 7⟩

/-- Claim C10: every record `saveResult` adds to the history has strictly
positive flight time, strictly positive height, and height equal to
`calculateJumpHeight` of its flight time; records already present are left
as they were. -/
theorem saveResult_record_invariant :
    ∀ (newId : String) (now : ℤ) (s : AppState),
      ∀ r ∈ (saveResult newId now s).jumpHistory,
        r ∈ s.jumpHistory ∨
          (0 < r.flightTime ∧ 0 < r.heightCm ∧
            r.heightCm = calculateJumpHeight r.flightTime) := by
  intro newId now s r hr
  cases hcu : s.currentUser with
  | none =>
    left
    simpa [saveResult, hcu] using hr
  | some u =>
    by_cases hft : stateFlightTime s ≤ 0
    · left
      simpa [saveResult, hcu, hft] using hr
    · push_neg at hft
      simp only [saveResult, hcu, not_le.mpr hft, if_false, List.mem_cons] at hr
      rcases hr with hr | hr
      · right
        subst hr
        have hheight : stateJumpHeight s = calculateJumpHeight (stateFlightTime s) := by
          simp only [stateJumpHeight, stateFlightTime] at hft ⊢
          simp only [jumpHeight, if_pos hft]
        exact ⟨hft, hheight ▸ calculateJumpHeight_pos _ hft, hheight⟩
      · exact Or.inl hr

/-- Witness for C10: the record produced by saving on `demoSaveState`. -/
theorem saveResult_record_invariant_witness :
    ({ id := "r1", userId := "u1", date := 5, heightCm := stateJumpHeight demoSaveState,
       flightTime := stateFlightTime demoSaveState } : JumpRecord) ∈
        demoSaveState.jumpHistory ∨
      (0 < stateFlightTime demoSaveState ∧
        0 < stateJumpHeight demoSaveState ∧
        stateJumpHeight demoSaveState = calculateJumpHeight (stateFlightTime demoSaveState)) :=
  saveResult_record_invariant "r1" 5 demoSaveState
    { id := "r1", userId := "u1", date := 5, heightCm := stateJumpHeight demoSaveState,
      flightTime := stateFlightTime demoSaveState }
    (by norm_num [saveResult, demoSaveState, initState, stateFlightTime, flightTime])

end JumpLab
